import Mathlib

/-!
# Verification of `aws_list_all` (query-engine CLI scaffolding)

A shallow embedding of the two source files of the repository,
`src/aws_list_all/client.py` and `src/aws_list_all/__main__.py`,
together with proofs of the specified properties.

Python dicts are modelled as insertion-ordered association lists
(`List (α × β)`) with the dict operations `lookupA` (subscript read /
`in` test) and `setA` (subscript write: update in place when the key is
present, append otherwise), which is exactly the observable behaviour of
a CPython dict.
-/

namespace AwsListAll

/-- Dict read: `d[k]` resp. the `k in d` test (`some`/`none`). -/
def lookupA {α β : Type} [DecidableEq α] : List (α × β) → α → Option β
  | [], _ => none
  | (k, v) :: rest, k' => if k = k' then some v else lookupA rest k'

/-- Dict write `d[k] = v`: replace in place when the key exists, append
at the end otherwise (CPython insertion order). -/
def setA {α β : Type} [DecidableEq α] : List (α × β) → α → β → List (α × β)
  | [], k, v => [(k, v)]
  | (k', v') :: rest, k, v => if k' = k then (k', v) :: rest else (k', v') :: setA rest k v

/-- The keys of a dict, in insertion order. -/
def keysA {α β : Type} (m : List (α × β)) : List α := m.map Prod.fst

/-! ## Embedding of `src/aws_list_all/client.py`

```python
_CLIENTS = {}

def get_client(service, region='us-east-1', profile='default'):
    key = (service, region, profile)
    session = None
    if key not in _CLIENTS:
        session = boto3.Session(region_name=region, profile_name=profile)
        _CLIENTS[key] = session.client(service)
    return _CLIENTS[key], session
```

Object identity of the boto3 `Session` and client objects is modelled by
a freshness counter in the cache state: every constructed object carries
the id it was created with, so "no new object was constructed" is
"the counter did not move".
-/

/-- A boto3 `Session` object: its constructor arguments plus its identity. -/
structure Session where
  region_name : String
  profile_name : String
  oid : Nat
deriving DecidableEq, Repr

/-- A boto3 client object: the service it was built for and the identity
of the session that built it. -/
structure Client where
  service : String
  oid : Nat
deriving DecidableEq, Repr

/-- The module-level mutable state of `client.py`: the `_CLIENTS` dict
plus the freshness counter for object identities. -/
structure ClientCacheState where
  clients : List ((String × String × String) × Client)
  nextOid : Nat
deriving DecidableEq, Repr

/-- The state of `client.py` at module import time: `_CLIENTS = {}`. -/
def initClientCacheState : ClientCacheState := ⟨[], 0⟩

/-- `get_client(service, region, profile)` from `client.py`, as a state
transformer: returns the new cache state, the client (`_CLIENTS[key]`)
and the `session` local (`None` unless the key was absent). -/
def get_client (st : ClientCacheState) (service region profile : String) :
    ClientCacheState × Client × Option Session :=
  let key := (service, region, profile)
  match lookupA st.clients key with
  | some c => (st, c, none)
  | none =>
      let session : Session := ⟨region, profile, st.nextOid⟩
      let client : Client := ⟨service, session.oid⟩
      (⟨setA st.clients key client, st.nextOid + 1⟩, client, some session)

/-- `get_client(service)` with Python's default arguments
`region='us-east-1'`, `profile='default'`. -/
def get_client_default (st : ClientCacheState) (service : String) :
    ClientCacheState × Client × Option Session :=
  get_client st service "us-east-1" "default"

/-! ## Embedding of `restructure` from `src/aws_list_all/__main__.py`

```python
def restructure(data):
    new_data = {}
    for data_type in data.keys():
        new_data[data_type] = {}
    for data_type in data.keys():
        for item in data[data_type]:
            region = item[0]; service = item[1]; operation = item[2]
            result_types = item[3].split(", ")
            if region not in new_data[data_type]:
                new_data[data_type][region] = {}
            if service not in new_data[data_type][region]:
                new_data[data_type][region][service] = []
            new_data[data_type][region][service].append(
                {"operation": operation, "result_types": result_types})
    return new_data
```
-/

/-- A classified record as produced by a query job: the 4-tuple
`(region, service, operation, result-types string)`. -/
structure Record where
  region : String
  service : String
  operation : String
  resultTypes : String
deriving DecidableEq, Repr

/-- The `{"operation": ..., "result_types": ...}` dict appended per record. -/
structure Entry where
  operation : String
  result_types : List String
deriving DecidableEq, Repr

/-- Python `str.split(sep)` on character lists: scan left to right; at
the leftmost occurrence of the (nonempty) separator emit the piece read
so far and continue after the separator.  The fuel argument only drives
structural recursion; any fuel above the input length is enough. -/
def splitChars (sep : List Char) : Nat → List Char → List Char → List (List Char)
  | 0, cs, acc => [acc.reverse ++ cs]
  | _ + 1, [], acc => [acc.reverse]
  | n + 1, c :: rest, acc =>
      if sep.isPrefixOf (c :: rest) then
        acc.reverse :: splitChars sep n (List.drop sep.length (c :: rest)) []
      else
        splitChars sep n rest (c :: acc)

/-- Python `s.split(sep)` for a nonempty separator (in particular
`"".split(sep) == [""]`). -/
def pySplit (s sep : String) : List String :=
  (splitChars sep.toList (s.length + 1) s.toList []).map (fun cs => String.mk cs)

/-- `item[3].split(", ")`: the record's result-types string split on the
two-character separator. -/
def splitTypes (s : String) : List String := pySplit s ", "

/-- The service level of the restructured mapping: service → entry list. -/
abbrev SvcMap := List (String × List Entry)

/-- The region level of the restructured mapping: region → service → entries. -/
abbrev RegMap := List (String × SvcMap)

/-- The body of the inner loop of `restructure`, acting on
`new_data[data_type]`: ensure the region and service keys exist, then
append the record's entry to `new_data[data_type][region][service]`. -/
def insertRecord (m : RegMap) (item : Record) : RegMap :=
  let m1 := if lookupA m item.region = none then setA m item.region [] else m
  let svc0 := (lookupA m1 item.region).getD []
  let svc1 := if lookupA svc0 item.service = none then setA svc0 item.service [] else svc0
  let entries := (lookupA svc1 item.service).getD []
  let svc2 := setA svc1 item.service (entries ++ [⟨item.operation, splitTypes item.resultTypes⟩])
  setA m1 item.region svc2

/-- One iteration of the inner loop of `restructure` on the whole
`new_data` dict: `insertRecord` applied in place at key `k`
(`new_data[data_type]`). -/
def innerStep (k : String) (nd : List (String × RegMap)) (item : Record) :
    List (String × RegMap) :=
  setA nd k (insertRecord ((lookupA nd k).getD []) item)

/-- One iteration of the outer loop of `restructure`: run the inner loop
over `data[data_type]`. -/
def outerStep (nd : List (String × RegMap)) (p : String × List Record) :
    List (String × RegMap) :=
  p.2.foldl (innerStep p.1) nd

/-- `restructure(data)` from `__main__.py`.  `data` is a dict from
result-class name to the list of classified records of that class;
iterating `data.keys()` with subscript reads on a dict is iterating its
(key, value) pairs in insertion order.  The first loop initializes every
class key to an empty dict; the second folds every record in. -/
def restructure (data : List (String × List Record)) : List (String × RegMap) :=
  data.foldl outerStep (data.foldl (fun nd p => setA nd p.1 ([] : RegMap)) [])

/-- The entry list stored at `m[region][service]` (empty when absent). -/
def entriesAt (m : RegMap) (region service : String) : List Entry :=
  (lookupA ((lookupA m region).getD []) service).getD []

/-- Total number of entries in one service map. -/
def rowTotal (svc : SvcMap) : Nat := (svc.map (fun q => q.2.length)).sum

/-- Total number of `{operation, result_types}` entries in one class's
region map, summed over all regions and services. -/
def totalEntries (m : RegMap) : Nat := (m.map (fun p => rowTotal p.2)).sum

/-! ## The result classes and the output of `do_query`

`RESULT_NOTHING`, `RESULT_SOMETHING`, `RESULT_NO_ACCESS` and
`RESULT_ERROR` are imported from `query.py`, which is part of the
repository but not among the given source files. -/

/-- Modelled from the spec: the result class `NOTHING` of `query.py`
(glossary: "one of NOTHING (empty), ..."). -/
def RESULT_NOTHING : String := "NOTHING"

/-- Modelled from the spec: the result class `SOMETHING` of `query.py`. -/
def RESULT_SOMETHING : String := "SOMETHING"

/-- Modelled from the spec: the result class `NO_ACCESS` of `query.py`. -/
def RESULT_NO_ACCESS : String := "NO_ACCESS"

/-- Modelled from the spec: the result class `ERROR` of `query.py`. -/
def RESULT_ERROR : String := "ERROR"

/-- Modelled from the spec: the value returned by `do_query` of
`query.py` (not among the given source files) — a mapping whose keys are
the four result classes ("keys are present for all four result classes
even if empty"), each holding that class's classified records in
completion order. -/
structure QueryResults where
  nothing : List Record
  something : List Record
  no_access : List Record
  error : List Record
deriving DecidableEq, Repr

/-- The `do_query` result as the dict `results_by_type`: one key per
result class, in the four-class order. -/
def QueryResults.toData (q : QueryResults) : List (String × List Record) :=
  [(RESULT_NOTHING, q.nothing), (RESULT_SOMETHING, q.something),
   (RESULT_NO_ACCESS, q.no_access), (RESULT_ERROR, q.error)]

/-! ## The query branch of `main()`: output file path and console summary

```python
if args.command == 'query':
    if args.directory:
        try: os.makedirs(args.directory)
        except OSError as e: pass
        os.chdir(args.directory)
    ...
    results_by_type = do_query(...)
    results_by_type = restructure(results_by_type)
    with open('../aws_list_all.json', 'w') as f:
        json.dump(results_by_type, f, indent=2)
    print("Wrote results to aws_list_all.json")
    for result_type in (RESULT_SOMETHING, RESULT_NO_ACCESS, RESULT_ERROR):
        result = sorted(results_by_type[result_type])
        for result in result:
            print(*result)
```
-/

/-- One step of relative-path resolution on a working directory given as
a component list: `..` drops the last component, `.` is a no-op, any
other name descends. -/
def resolveComponent (cwd : List String) (c : String) : List String :=
  if c = ".." then cwd.dropLast else if c = "." then cwd else cwd ++ [c]

/-- Resolve a relative path (components separated by `/`) against a
working directory. -/
def resolveRel (cwd : List String) (rel : String) : List String :=
  (pySplit rel "/").foldl resolveComponent cwd

/-- The literal path the query branch opens for writing:
`open('../aws_list_all.json', 'w')`. -/
def outputFileRelPath : String := "../aws_list_all.json"

/-- The working directory of the query branch after
`os.chdir(args.directory)` (the selected output directory), as a
function of the initial working directory. -/
def queryWorkDir (cwd : List String) (directory : String) : List String :=
  if directory = "" then cwd else resolveRel cwd directory

/-- The location the query branch writes its JSON document to:
`outputFileRelPath` resolved against the selected output directory. -/
def queryWritePath (cwd : List String) (directory : String) : List String :=
  resolveRel (queryWorkDir cwd directory) outputFileRelPath

/-- Python string comparison `a <= b`: lexicographic on code points. -/
def pyStrLe : List Char → List Char → Bool
  | [], _ => true
  | _ :: _, [] => false
  | a :: as, b :: bs => if a = b then pyStrLe as bs else decide (a.toNat < b.toNat)

/-- Insert a string into an already sorted list, before the first
strictly larger element (keeps the order of equal elements, as Python's
stable `sorted` does). -/
def insertLe (a : String) : List String → List String
  | [] => [a]
  | b :: bs => if pyStrLe a.toList b.toList then a :: b :: bs else b :: insertLe a bs

/-- Python `sorted` on a list of strings: stable insertion sort under
the code-point lexicographic order. -/
def sortedStrings (l : List String) : List String := l.foldr insertLe []

/-- `print(*s)` applied to a string `s`: the characters of `s` printed as
separate arguments, i.e. joined by single spaces. -/
def printSplat (s : String) : String :=
  String.intercalate " " (s.toList.map (fun c => String.mk [c]))

/-- The console summary lines printed by the query branch after the JSON
dump.  At that point `results_by_type` has been rebound to
`restructure(...)`, so `results_by_type[result_type]` is a dict keyed by
region: `sorted` of it yields its region keys in sorted order, and
`print(*result)` splats each region name character by character. -/
def summaryLines (results : List (String × RegMap)) : List String :=
  [RESULT_SOMETHING, RESULT_NO_ACCESS, RESULT_ERROR].flatMap (fun rt =>
    (sortedStrings (keysA ((lookupA results rt).getD []))).map printSplat)

/-- The line `print(*result)` would produce for a classified record
4-tuple: its four components joined by single spaces. -/
def recordLine (r : Record) : String :=
  r.region ++ " " ++ r.service ++ " " ++ r.operation ++ " " ++ r.resultTypes

/-- The console summary the spec describes (for comparison with
`summaryLines`): for each of SOMETHING, NO_ACCESS, ERROR in that order,
the class's classified records, printed lines sorted lexicographically
within the class; NOTHING excluded. -/
def specSummaryLines (q : QueryResults) : List String :=
  [q.something, q.no_access, q.error].flatMap (fun recs =>
    sortedStrings (recs.map recordLine))

/-! ## CLI dispatch of `main()` and the script entry point -/

/-- The DETAIL sub-argument of the `introspect` subcommand. -/
inductive Detail
  | listServices
  | listServiceRegions
  | listOperations (services : List String)
  | debug
deriving DecidableEq, Repr

/-- The parsed command line: which subcommand was selected and the
sub-arguments that influence `main()`'s return value.  The `query`
constructor carries the classified results `do_query` came back with, to
express that they do not influence the exit code. -/
inductive Command
  | query (results : QueryResults)
  | showCmd (listingfile : List String)
  | introspect (detail : Option Detail)
  | recreateCaches
  | noCommand
deriving DecidableEq, Repr

/-- The value `main()` returns: `1` from the three `return 1` branches,
`0` from `return 0` in the list-service-regions branch, and `None`
(falling off the end) everywhere else. -/
def mainRet : Command → Option Nat
  | .query _ => none
  | .showCmd lf => if lf.isEmpty then some 1 else none
  | .introspect (some Detail.listServiceRegions) => some 0
  | .introspect (some _) => none
  | .introspect none => some 1
  | .recreateCaches => none
  | .noCommand => some 1

/-- `exit(main())`: `sys.exit(None)` is exit code 0, `sys.exit(n)` is `n`. -/
def exitCode (r : Option Nat) : Nat := r.getD 0

/-- The process exit code of a run of `main()` under `exit(main())`. -/
def mainExit (c : Command) : Nat := exitCode (mainRet c)

/-- A required sub-argument is missing: no subcommand, `show` without
listing files, or `introspect` without a DETAIL. -/
def missingSubargument : Command → Prop
  | .showCmd lf => lf = []
  | .introspect d => d = none
  | .noCommand => True
  | _ => False

instance : DecidablePred missingSubargument := by
  intro c
  cases c <;> simp only [missingSubargument] <;> infer_instance

/-- The `if __name__ == '__main__':` block of `__main__.py`:
`client, session = get_client('ecs')`, then
`s = Loader().list_available_services('region-1')`, then
`exit(main())`.  Returns the client-cache state after the prelude, the
partition name handed to the botocore loader, and the exit code. -/
def scriptMain (args : Command) : ClientCacheState × String × Nat :=
  let r1 := get_client_default initClientCacheState "ecs"
  (r1.1, "region-1", mainExit args)

/-- A concrete single-record query result used to evaluate the query
branch: one SOMETHING record, nothing else. -/
def cexQuery : QueryResults :=
  ⟨[], [⟨"us-east-1", "ec2", "DescribeInstances", "Reservations"⟩], [], []⟩

/-- A concrete two-record query result whose SOMETHING records share a
region and service and arrive in non-alphabetical completion order. -/
def cexQuery2 : QueryResults :=
  ⟨[], [⟨"us-east-1", "ec2", "DescribeVpcs", "Vpcs"⟩,
        ⟨"us-east-1", "ec2", "DescribeInstances", "Reservations"⟩], [], []⟩

/-- A concrete initial working directory for evaluating the query
branch's output path. -/
def cexCwd : List String := ["home", "user"]

/-- The map from a record to the entry `restructure` appends for it. -/
def entryOf (it : Record) : Entry := ⟨it.operation, splitTypes it.resultTypes⟩

/-! ## Dictionary lemmas -/

section DictLemmas

variable {α β : Type} [DecidableEq α]

theorem lookupA_setA_self (m : List (α × β)) (k : α) (v : β) :
    lookupA (setA m k v) k = some v := by
  induction m with
  | nil => simp [lookupA, setA]
  | cons hd tl ih =>
      obtain ⟨k', v'⟩ := hd
      by_cases h : k' = k <;> simp [lookupA, setA, h, ih]

theorem lookupA_setA_ne (m : List (α × β)) (k k' : α) (v : β) (h : k' ≠ k) :
    lookupA (setA m k v) k' = lookupA m k' := by
  induction m with
  | nil => simp [lookupA, setA, Ne.symm h]
  | cons hd tl ih =>
      obtain ⟨ka, va⟩ := hd
      by_cases hk : ka = k
      · subst hk
        simp [lookupA, setA, Ne.symm h]
      · simp only [setA, if_neg hk, lookupA]
        by_cases hk' : ka = k' <;> simp [hk', ih]

theorem setA_eq_append (m : List (α × β)) (k : α) (v : β)
    (h : lookupA m k = none) : setA m k v = m ++ [(k, v)] := by
  induction m with
  | nil => simp [setA]
  | cons hd tl ih =>
      obtain ⟨ka, va⟩ := hd
      by_cases hk : ka = k
      · simp [lookupA, hk] at h
      · simp only [lookupA, if_neg hk] at h
        simp [setA, hk, ih h]

theorem setA_eq_self (m : List (α × β)) (k : α) (v : β)
    (h : lookupA m k = some v) : setA m k v = m := by
  induction m with
  | nil => simp [lookupA] at h
  | cons hd tl ih =>
      obtain ⟨ka, va⟩ := hd
      by_cases hk : ka = k
      · simp only [lookupA, if_pos hk, Option.some.injEq] at h
        simp [setA, hk, h]
      · simp only [lookupA, if_neg hk] at h
        simp [setA, hk, ih h]

theorem setA_setA (m : List (α × β)) (k : α) (v w : β) :
    setA (setA m k w) k v = setA m k v := by
  induction m with
  | nil => simp [setA]
  | cons hd tl ih =>
      obtain ⟨ka, va⟩ := hd
      by_cases hk : ka = k <;> simp [setA, hk, ih]

theorem lookupA_append_of_none (m₁ m₂ : List (α × β)) (k : α)
    (h : lookupA m₁ k = none) : lookupA (m₁ ++ m₂) k = lookupA m₂ k := by
  induction m₁ with
  | nil => simp
  | cons hd tl ih =>
      obtain ⟨ka, va⟩ := hd
      by_cases hk : ka = k
      · simp [lookupA, hk] at h
      · simp only [lookupA, if_neg hk] at h
        simp [lookupA, hk, ih h]

theorem setA_append_of_none (m₁ m₂ : List (α × β)) (k : α) (v : β)
    (h : lookupA m₁ k = none) : setA (m₁ ++ m₂) k v = m₁ ++ setA m₂ k v := by
  induction m₁ with
  | nil => simp
  | cons hd tl ih =>
      obtain ⟨ka, va⟩ := hd
      by_cases hk : ka = k
      · simp [lookupA, hk] at h
      · simp only [lookupA, if_neg hk] at h
        simp [setA, hk, ih h]

theorem lookupA_map_values {γ : Type} (m : List (α × β)) (g : β → γ) (k : α) :
    lookupA (m.map (fun p => (p.1, g p.2))) k = (lookupA m k).map g := by
  induction m with
  | nil => simp [lookupA]
  | cons hd tl ih =>
      obtain ⟨ka, va⟩ := hd
      by_cases hk : ka = k <;> simp [lookupA, hk, ih]

theorem lookupA_eq_none_of_not_mem (m : List (α × β)) (k : α)
    (h : k ∉ keysA m) : lookupA m k = none := by
  induction m with
  | nil => simp [lookupA]
  | cons hd tl ih =>
      obtain ⟨ka, va⟩ := hd
      simp only [keysA, List.map_cons, List.mem_cons] at h
      push_neg at h
      simp [lookupA, Ne.symm h.1, ih (by simpa [keysA] using h.2)]

theorem lookupA_isSome_of_mem (m : List (α × β)) (p : α × β)
    (h : p ∈ m) : (lookupA m p.1).isSome = true := by
  induction m with
  | nil => simp at h
  | cons hd tl ih =>
      obtain ⟨ka, va⟩ := hd
      by_cases hk : ka = p.1
      · simp [lookupA, hk]
      · rcases List.mem_cons.mp h with h1 | h1
        · rw [h1] at hk; simp at hk
        · simp [lookupA, hk, ih h1]

end DictLemmas

/-! ## `insertRecord` step lemmas -/

theorem lookupA_ensure {α β : Type} [DecidableEq α] [DecidableEq β]
    (m : List (α × β)) (k : α) (d : β) :
    (lookupA (if lookupA m k = none then setA m k d else m) k).getD d
      = (lookupA m k).getD d := by
  by_cases h : lookupA m k = none
  · simp [h, lookupA_setA_self]
  · simp [h]

theorem lookupA_ensure_ne {α β : Type} [DecidableEq α] [DecidableEq β]
    (m : List (α × β)) (k k' : α) (d : β)
    (h : k' ≠ k) :
    lookupA (if lookupA m k = none then setA m k d else m) k' = lookupA m k' := by
  by_cases hnone : lookupA m k = none
  · simp [hnone, lookupA_setA_ne _ _ _ _ h]
  · simp [hnone]

theorem entriesAt_insertRecord_self (m : RegMap) (item : Record) :
    entriesAt (insertRecord m item) item.region item.service =
      entriesAt m item.region item.service ++ [entryOf item] := by
  simp only [insertRecord, entriesAt, entryOf, lookupA_setA_self, Option.getD_some]
  rw [lookupA_ensure]
  rw [lookupA_ensure]

theorem entriesAt_insertRecord_ne_region (m : RegMap) (item : Record) (r s : String)
    (h : r ≠ item.region) :
    entriesAt (insertRecord m item) r s = entriesAt m r s := by
  simp only [insertRecord, entriesAt]
  rw [lookupA_setA_ne _ _ _ _ h, lookupA_ensure_ne _ _ _ _ h]

theorem entriesAt_insertRecord_ne_service (m : RegMap) (item : Record) (s : String)
    (h : s ≠ item.service) :
    entriesAt (insertRecord m item) item.region s = entriesAt m item.region s := by
  simp only [insertRecord, entriesAt, lookupA_setA_self, Option.getD_some]
  rw [lookupA_setA_ne _ _ _ _ h, lookupA_ensure_ne _ _ _ _ h]
  rw [lookupA_ensure]

theorem entriesAt_insertRecord (m : RegMap) (item : Record) (r s : String) :
    entriesAt (insertRecord m item) r s =
      if item.region = r ∧ item.service = s
      then entriesAt m r s ++ [entryOf item]
      else entriesAt m r s := by
  by_cases hr : r = item.region
  · by_cases hs : s = item.service
    · subst hr; subst hs
      simp [entriesAt_insertRecord_self]
    · subst hr
      rw [entriesAt_insertRecord_ne_service _ _ _ hs]
      simp [Ne.symm hs]
  · rw [entriesAt_insertRecord_ne_region _ _ _ _ hr]
    simp [Ne.symm hr]

/-! ## Entry-count lemmas -/

theorem rowTotal_setA (svc : SvcMap) (k : String) (v : List Entry) :
    rowTotal (setA svc k v) + ((lookupA svc k).getD []).length
      = rowTotal svc + v.length := by
  induction svc with
  | nil => simp [setA, rowTotal, lookupA]
  | cons hd tl ih =>
      obtain ⟨ka, va⟩ := hd
      by_cases hk : ka = k
      · simp only [setA, if_pos hk, lookupA, rowTotal, List.map_cons, List.sum_cons,
          Option.getD_some]
        omega
      · simp only [setA, if_neg hk, lookupA, rowTotal, List.map_cons, List.sum_cons] at ih ⊢
        omega

theorem totalEntries_setA (m : RegMap) (k : String) (v : SvcMap) :
    totalEntries (setA m k v) + rowTotal ((lookupA m k).getD [])
      = totalEntries m + rowTotal v := by
  induction m with
  | nil => simp [setA, totalEntries, lookupA, rowTotal]
  | cons hd tl ih =>
      obtain ⟨ka, va⟩ := hd
      by_cases hk : ka = k
      · simp only [setA, if_pos hk, lookupA, totalEntries, List.map_cons, List.sum_cons,
          Option.getD_some]
        omega
      · simp only [setA, if_neg hk, lookupA, totalEntries, List.map_cons, List.sum_cons] at ih ⊢
        omega

theorem totalEntries_insertRecord (m : RegMap) (item : Record) :
    totalEntries (insertRecord m item) = totalEntries m + 1 := by
  obtain ⟨r, s, op, rts⟩ := item
  simp only [insertRecord]
  by_cases h1 : lookupA m r = none
  · simp only [h1, if_pos rfl, reduceIte, lookupA_setA_self, Option.getD_some, setA_setA]
    simp only [lookupA, setA, reduceIte, Option.getD_none]
    rw [setA_eq_append _ _ _ h1]
    simp [totalEntries, rowTotal]
  · obtain ⟨svc0, hl⟩ := Option.ne_none_iff_exists'.mp h1
    by_cases h2 : lookupA svc0 s = none
    · have k1 := totalEntries_setA m r (setA svc0 s ([⟨op, splitTypes rts⟩] : List Entry))
      have k2 := rowTotal_setA svc0 s ([⟨op, splitTypes rts⟩] : List Entry)
      rw [hl] at k1
      rw [h2] at k2
      simp only [Option.getD_some, Option.getD_none, List.length_nil, List.length_cons,
        List.nil_append] at k1 k2
      simp [hl, h2, lookupA_setA_self, setA_setA]
      omega
    · obtain ⟨es, he⟩ := Option.ne_none_iff_exists'.mp h2
      have k1 := totalEntries_setA m r (setA svc0 s (es ++ [⟨op, splitTypes rts⟩]))
      have k2 := rowTotal_setA svc0 s (es ++ [⟨op, splitTypes rts⟩])
      rw [hl] at k1
      rw [he] at k2
      simp only [Option.getD_some, List.length_append, List.length_cons,
        List.length_nil] at k1 k2
      simp [hl, he, h2, lookupA_setA_self]
      omega

/-! ## Folding a whole class through `insertRecord` -/

theorem entriesAt_foldl (recs : List Record) :
    ∀ (m : RegMap) (r s : String),
      entriesAt (recs.foldl insertRecord m) r s =
        entriesAt m r s ++
          (recs.filter (fun it => it.region = r ∧ it.service = s)).map entryOf := by
  induction recs with
  | nil => intro m r s; simp
  | cons item rest ih =>
      intro m r s
      simp only [List.foldl_cons, List.filter_cons]
      rw [ih]
      rw [entriesAt_insertRecord]
      by_cases h : item.region = r ∧ item.service = s
      · simp [h, List.append_assoc]
      · simp [h]

theorem totalEntries_foldl (recs : List Record) :
    ∀ m : RegMap,
      totalEntries (recs.foldl insertRecord m) = totalEntries m + recs.length := by
  induction recs with
  | nil => intro m; simp
  | cons item rest ih =>
      intro m
      simp only [List.foldl_cons, List.length_cons, ih, totalEntries_insertRecord]
      omega

/-! ## The two loops of `restructure` -/

theorem foldl_init (todo : List (String × List Record)) :
    ∀ acc : List (String × RegMap),
      (∀ p ∈ todo, lookupA acc p.1 = none) → (todo.map Prod.fst).Nodup →
      todo.foldl (fun nd p => setA nd p.1 ([] : RegMap)) acc
        = acc ++ todo.map (fun p => (p.1, ([] : RegMap))) := by
  induction todo with
  | nil =>
      intro acc _ _
      simp
  | cons p rest ih =>
      intro acc hfresh hnd
      simp only [List.map_cons, List.mem_cons, List.nodup_cons] at hnd
      simp only [List.foldl_cons, List.map_cons]
      rw [setA_eq_append _ _ _ (hfresh p (by simp))]
      rw [ih (acc ++ [(p.1, [])])
        (fun q hq => by
          have hq1 : q.1 ≠ p.1 := by
            intro he
            exact hnd.1 (he ▸ List.mem_map_of_mem Prod.fst hq)
          rw [lookupA_append_of_none _ _ _ (hfresh q (List.mem_cons_of_mem _ hq))]
          simp [lookupA, Ne.symm hq1])
        hnd.2]
      simp

theorem innerFold_eq_setA (recs : List Record) :
    ∀ (nd : List (String × RegMap)) (k : String) (m₀ : RegMap),
      lookupA nd k = some m₀ →
      recs.foldl (innerStep k) nd = setA nd k (recs.foldl insertRecord m₀) := by
  induction recs with
  | nil =>
      intro nd k m₀ h
      simp [setA_eq_self _ _ _ h]
  | cons item rest ih =>
      intro nd k m₀ h
      simp only [List.foldl_cons, innerStep, h, Option.getD_some]
      rw [ih _ _ _ (lookupA_setA_self nd k _), setA_setA]

theorem foldl_outer (todo : List (String × List Record)) :
    ∀ acc : List (String × RegMap),
      (∀ p ∈ todo, lookupA acc p.1 = none) → (todo.map Prod.fst).Nodup →
      todo.foldl outerStep (acc ++ todo.map (fun p => (p.1, ([] : RegMap))))
        = acc ++ todo.map (fun p => (p.1, p.2.foldl insertRecord [])) := by
  induction todo with
  | nil =>
      intro acc _ _
      simp
  | cons p rest ih =>
      intro acc hfresh hnd
      simp only [List.map_cons, List.mem_cons, List.nodup_cons] at hnd
      simp only [List.foldl_cons, List.map_cons]
      have hacc : lookupA acc p.1 = none := hfresh p (by simp)
      have hnd0 : lookupA
          (acc ++ (p.1, ([] : RegMap)) :: rest.map (fun q => (q.1, ([] : RegMap)))) p.1
          = some [] := by
        rw [lookupA_append_of_none _ _ _ hacc]
        simp [lookupA]
      rw [outerStep, innerFold_eq_setA _ _ _ _ hnd0]
      rw [setA_append_of_none _ _ _ _ hacc]
      have hset : setA ((p.1, ([] : RegMap)) :: rest.map (fun q => (q.1, ([] : RegMap)))) p.1
          (p.2.foldl insertRecord [])
          = (p.1, p.2.foldl insertRecord []) :: rest.map (fun q => (q.1, ([] : RegMap))) := by
        simp [setA]
      rw [hset]
      rw [List.append_cons acc _ (rest.map (fun q => (q.1, ([] : RegMap))))]
      rw [ih (acc ++ [(p.1, p.2.foldl insertRecord [])])
        (fun q hq => by
          have hq1 : q.1 ≠ p.1 := by
            intro he
            exact hnd.1 (he ▸ List.mem_map_of_mem Prod.fst hq)
          rw [lookupA_append_of_none _ _ _ (hfresh q (List.mem_cons_of_mem _ hq))]
          simp [lookupA, Ne.symm hq1])
        hnd.2]
      simp

theorem restructure_eq_map (data : List (String × List Record))
    (hnd : (data.map Prod.fst).Nodup) :
    restructure data = data.map (fun p => (p.1, p.2.foldl insertRecord [])) := by
  unfold restructure
  rw [foldl_init data [] (fun p _ => by simp [lookupA]) hnd]
  have h2 := foldl_outer data [] (fun p _ => by simp [lookupA]) hnd
  simpa using h2

theorem lookupA_restructure (data : List (String × List Record))
    (hnd : (data.map Prod.fst).Nodup) (dt : String) (recs : List Record)
    (hdt : lookupA data dt = some recs) :
    lookupA (restructure data) dt = some (recs.foldl insertRecord []) := by
  rw [restructure_eq_map data hnd]
  rw [lookupA_map_values data (fun l => l.foldl insertRecord []) dt]
  rw [hdt]
  rfl

/-! ## Claim theorems -/

/-- C1: the query branch does not write `aws_list_all.json` into the
selected output directory.  After `os.chdir(args.directory)` it opens
`../aws_list_all.json`, so from an initial working directory `home/user`
with `-d out` the document lands at `home/user/aws_list_all.json` — the
parent of the selected directory `home/user/out` — and with the default
directory `.` it lands at `home/aws_list_all.json`, outside the original
working directory altogether. -/
theorem C1_output_file_escapes_selected_directory :
    queryWritePath cexCwd "out" = ["home", "user", "aws_list_all.json"] ∧
    queryWorkDir cexCwd "out" ++ ["aws_list_all.json"]
      = ["home", "user", "out", "aws_list_all.json"] ∧
    queryWritePath cexCwd "out" ≠ queryWorkDir cexCwd "out" ++ ["aws_list_all.json"] ∧
    queryWritePath cexCwd "." = ["home", "aws_list_all.json"] := by
  decide

/-- C2: the console summary after the JSON dump does not print the
classified records.  `results_by_type` has already been rebound to
`restructure(...)`, so `sorted(results_by_type[result_type])` yields the
sorted region keys of a nested dict and `print(*result)` splats each
region name character by character.  On a query result with the single
SOMETHING record `("us-east-1", "ec2", "DescribeInstances",
"Reservations")` the code prints the line `u s - e a s t - 1`, not the
sorted record line the spec describes. -/
theorem C2_summary_prints_split_region_names :
    summaryLines (restructure cexQuery.toData) = ["u s - e a s t - 1"] ∧
    specSummaryLines cexQuery
      = ["us-east-1 ec2 DescribeInstances Reservations"] ∧
    summaryLines (restructure cexQuery.toData) ≠ specSummaryLines cexQuery := by
  decide

/-- C3: in the restructured mapping, the entry list under a class, region
and service contains exactly the entries of that class's input records
with that region and service, each with `result_types` equal to the
record's fourth component split on the separator. -/
theorem C3_restructure_places_each_record (data : List (String × List Record))
    (hnd : (data.map Prod.fst).Nodup) (dt : String) (recs : List Record)
    (hdt : lookupA data dt = some recs) (r s : String) (e : Entry) :
    e ∈ entriesAt ((lookupA (restructure data) dt).getD []) r s ↔
      ∃ op rts, Record.mk r s op rts ∈ recs ∧ e = ⟨op, splitTypes rts⟩ := by
  rw [lookupA_restructure data hnd dt recs hdt]
  simp only [Option.getD_some]
  rw [entriesAt_foldl recs [] r s]
  simp only [entriesAt, lookupA, Option.getD_none, List.nil_append]
  constructor
  · intro he
    simp only [List.mem_map, List.mem_filter, decide_eq_true_eq] at he
    obtain ⟨it, ⟨hmem, hr, hs⟩, hent⟩ := he
    refine ⟨it.operation, it.resultTypes, ?_, ?_⟩
    · have hit : Record.mk r s it.operation it.resultTypes = it := by
        cases it
        cases hr
        cases hs
        rfl
      rw [hit]
      exact hmem
    · rw [← hent]
      rfl
  · rintro ⟨op, rts, hmem, he⟩
    simp only [List.mem_map, List.mem_filter, decide_eq_true_eq]
    refine ⟨⟨r, s, op, rts⟩, ⟨hmem, rfl, rfl⟩, ?_⟩
    rw [he]
    rfl

/-- Witness for C3 at the single-record query result. -/
theorem C3_witness :
    ((cexQuery.toData.map Prod.fst).Nodup ∧
      lookupA cexQuery.toData RESULT_SOMETHING
        = some [Record.mk "us-east-1" "ec2" "DescribeInstances" "Reservations"]) ∧
    ((⟨"DescribeInstances", ["Reservations"]⟩ : Entry) ∈
        entriesAt ((lookupA (restructure cexQuery.toData) RESULT_SOMETHING).getD [])
          "us-east-1" "ec2" ↔
      ∃ op rts,
        Record.mk "us-east-1" "ec2" op rts
            ∈ [Record.mk "us-east-1" "ec2" "DescribeInstances" "Reservations"] ∧
          (⟨"DescribeInstances", ["Reservations"]⟩ : Entry) = ⟨op, splitTypes rts⟩) :=
  ⟨⟨by decide, by decide⟩,
    C3_restructure_places_each_record cexQuery.toData (by decide) RESULT_SOMETHING
      [Record.mk "us-east-1" "ec2" "DescribeInstances" "Reservations"] (by decide)
      "us-east-1" "ec2" ⟨"DescribeInstances", ["Reservations"]⟩⟩

/-- C4: the restructured output of a query run has top-level keys for all
four result classes, in order, even when a class holds no records. -/
theorem C4_all_four_classes_present (q : QueryResults) :
    keysA (restructure q.toData)
      = [RESULT_NOTHING, RESULT_SOMETHING, RESULT_NO_ACCESS, RESULT_ERROR] := by
  have hkeys : q.toData.map Prod.fst
      = [RESULT_NOTHING, RESULT_SOMETHING, RESULT_NO_ACCESS, RESULT_ERROR] := rfl
  have hnd : (q.toData.map Prod.fst).Nodup := by
    rw [hkeys]
    decide
  rw [keysA, restructure_eq_map q.toData hnd, List.map_map]
  exact hkeys

/-- C5: within one class, region and service, the restructured entry list
is the input records with that region and service, mapped to entries, in
their original (completion) order — never reordered. -/
theorem C5_restructure_keeps_completion_order (data : List (String × List Record))
    (hnd : (data.map Prod.fst).Nodup) (dt : String) (recs : List Record)
    (hdt : lookupA data dt = some recs) (r s : String) :
    entriesAt ((lookupA (restructure data) dt).getD []) r s =
      (recs.filter (fun it => it.region = r ∧ it.service = s)).map entryOf := by
  rw [lookupA_restructure data hnd dt recs hdt]
  simp only [Option.getD_some]
  rw [entriesAt_foldl recs [] r s]
  simp [entriesAt, lookupA]

/-- Witness for C5 at a two-record query result in non-alphabetical
completion order. -/
theorem C5_witness :
    ((cexQuery2.toData.map Prod.fst).Nodup ∧
      lookupA cexQuery2.toData RESULT_SOMETHING = some cexQuery2.something) ∧
    entriesAt ((lookupA (restructure cexQuery2.toData) RESULT_SOMETHING).getD [])
        "us-east-1" "ec2" =
      (cexQuery2.something.filter
          (fun it => it.region = "us-east-1" ∧ it.service = "ec2")).map entryOf :=
  ⟨⟨by decide, by decide⟩,
    C5_restructure_keeps_completion_order cexQuery2.toData (by decide) RESULT_SOMETHING
      cexQuery2.something (by decide) "us-east-1" "ec2"⟩

/-- C6: restructuring neither drops nor duplicates records: within one
class the entry count equals that class's record count, and the grand
total of entries equals the total number of input records. -/
theorem C6_restructure_preserves_record_count (data : List (String × List Record))
    (hnd : (data.map Prod.fst).Nodup) (dt : String) (recs : List Record)
    (hdt : lookupA data dt = some recs) :
    totalEntries ((lookupA (restructure data) dt).getD []) = recs.length ∧
    ((restructure data).map (fun p => totalEntries p.2)).sum
      = (data.map (fun p => p.2.length)).sum := by
  constructor
  · rw [lookupA_restructure data hnd dt recs hdt]
    simp only [Option.getD_some]
    rw [totalEntries_foldl recs []]
    simp [totalEntries]
  · rw [restructure_eq_map data hnd, List.map_map]
    have hfun : ((fun p : String × RegMap => totalEntries p.2) ∘
        (fun p : String × List Record => (p.1, p.2.foldl insertRecord []))) =
        fun p : String × List Record => p.2.length := by
      funext p
      show totalEntries (p.2.foldl insertRecord []) = p.2.length
      rw [totalEntries_foldl p.2 []]
      simp [totalEntries]
    rw [hfun]

/-- Witness for C6 at the two-record query result. -/
theorem C6_witness :
    ((cexQuery2.toData.map Prod.fst).Nodup ∧
      lookupA cexQuery2.toData RESULT_SOMETHING = some cexQuery2.something) ∧
    (totalEntries ((lookupA (restructure cexQuery2.toData) RESULT_SOMETHING).getD [])
        = cexQuery2.something.length ∧
      ((restructure cexQuery2.toData).map (fun p => totalEntries p.2)).sum
        = (cexQuery2.toData.map (fun p => p.2.length)).sum) :=
  ⟨⟨by decide, by decide⟩,
    C6_restructure_preserves_record_count cexQuery2.toData (by decide) RESULT_SOMETHING
      cexQuery2.something (by decide)⟩

/-- C7: `get_client` is a get-or-create cache: a first call for an absent
key constructs a client (one fresh object id) and stores it under the
key, and a repeated call with the same triple returns the identical
cached client with the state unchanged — no new construction. -/
theorem C7_client_cache_get_or_create (st : ClientCacheState)
    (service region profile : String)
    (h : lookupA st.clients (service, region, profile) = none) :
    lookupA (get_client st service region profile).1.clients (service, region, profile)
        = some (get_client st service region profile).2.1 ∧
    (get_client st service region profile).1.nextOid = st.nextOid + 1 ∧
    get_client (get_client st service region profile).1 service region profile
      = ((get_client st service region profile).1,
         (get_client st service region profile).2.1, none) := by
  simp [get_client, h, lookupA_setA_self]

/-- Witness for C7 on the empty cache. -/
theorem C7_witness :
    lookupA initClientCacheState.clients ("ecs", "us-east-1", "default") = none ∧
    (lookupA (get_client initClientCacheState "ecs" "us-east-1" "default").1.clients
          ("ecs", "us-east-1", "default")
        = some (get_client initClientCacheState "ecs" "us-east-1" "default").2.1 ∧
      (get_client initClientCacheState "ecs" "us-east-1" "default").1.nextOid
        = initClientCacheState.nextOid + 1 ∧
      get_client (get_client initClientCacheState "ecs" "us-east-1" "default").1
          "ecs" "us-east-1" "default"
        = ((get_client initClientCacheState "ecs" "us-east-1" "default").1,
           (get_client initClientCacheState "ecs" "us-east-1" "default").2.1, none)) :=
  ⟨by decide,
    C7_client_cache_get_or_create initClientCacheState "ecs" "us-east-1" "default"
      (by decide)⟩

/-- C8: the process exit code is 1 exactly when a required sub-argument
is missing (no subcommand, `show` without listing files, `introspect`
without a DETAIL) and 0 otherwise; in particular the query branch exits
0 whatever classified results `do_query` produced. -/
theorem C8_exit_code_only_reflects_usage :
    (∀ c : Command, mainExit c = if missingSubargument c then 1 else 0) ∧
    (∀ q : QueryResults, mainExit (Command.query q) = 0) := by
  constructor
  · intro c
    cases c with
    | query q => rfl
    | showCmd lf => cases lf <;> rfl
    | introspect d =>
        cases d with
        | none => rfl
        | some dd => cases dd <;> rfl
    | recreateCaches => rfl
    | noCommand => rfl
  · intro q
    rfl

/-- C9: the second component returned by `get_client` is the fresh
`Session` exactly on the cache-populating call: `None` whenever the key
is already cached. -/
theorem C9_session_only_on_first_call (st : ClientCacheState)
    (service region profile : String) :
    (get_client st service region profile).2.2 =
      if lookupA st.clients (service, region, profile) = none
      then some ⟨region, profile, st.nextOid⟩
      else none := by
  unfold get_client
  cases h : lookupA st.clients (service, region, profile) with
  | none => simp [h]
  | some c => simp [h]

/-- C10: the script entry block unconditionally calls
`get_client('ecs')` (caching a client under
`('ecs', 'us-east-1', 'default')`) and hands the partition `'region-1'`
to the botocore loader before `main()` runs, for every parsed command
line. -/
theorem C10_script_prelude_populates_cache (args : Command) :
    (scriptMain args).1.clients
        = [(("ecs", "us-east-1", "default"), ⟨"ecs", 0⟩)] ∧
    (scriptMain args).1.nextOid = 1 ∧
    (scriptMain args).2.1 = "region-1" :=
  ⟨rfl, rfl, rfl⟩

end AwsListAll
